import Mathlib

/-!
Verification of the FYP Analysis System (`src/main.py`).

This file is a shallow embedding of the analyzer's core logic:

* the domain-resolution pipeline `FYPAnalyzer.categorize_by_domain`
  (AI-first, keyword fallback, existing-label fallback, default), with the
  external AI classifier (`categorize_with_gemini`) abstracted as an input of
  type `Option GeminiResult` — `none` models "adapter absent / call failed /
  unparseable or falsy JSON", `some g` models a parseable, truthy JSON object;
* the similarity post-processing `FYPAnalyzer.calculate_similarity`
  (usable-text filtering, upper-triangle pair discovery, threshold retention,
  3-decimal rounding, tier labelling, domain-overlap lookup, final sort).
  The TF-IDF cosine matrix produced by the external scikit-learn library is
  abstracted as an input function `sim : Nat → Nat → ℚ`;
* the single-winner domain lookup `FYPAnalyzer.get_project_domains`;
* the constructor `FYPAnalyzer.__init__` and the post-construction threshold
  assignment used by `demo.py` / `web_app.py`.

Machine floats are modelled by exact rationals; Python's `round(x, 3)` is
modelled as round-half-to-even at the third decimal.  Strings are Lean
strings with ASCII lower-casing, matching the repository's data.
-/

namespace FYP

/-- Python `str.lower()` (ASCII-accurate, which covers the repository's
taxonomy and data). -/
def lowerStr (s : String) : String := String.mk (s.toList.map Char.toLower)

/-- Python `str.strip()`: remove leading and trailing whitespace (ASCII). -/
def pyStrip (s : String) : String :=
  String.mk (((s.toList.dropWhile Char.isWhitespace).reverse.dropWhile
    Char.isWhitespace).reverse)

/-- Does the pattern occur at the very start of the text? -/
def matchesAt : List Char → List Char → Bool
  | [], _ => true
  | _ :: _, [] => false
  | a :: as, b :: bs => a == b && matchesAt as bs

/-- Left-to-right scan counting non-overlapping matches of a non-empty
pattern: after a match at some position, the next `skip` positions are not
match candidates (the scan resumes after the end of the match). -/
def countSubGo (p : List Char) : List Char → Nat → Nat
  | [], _ => 0
  | c :: rest, skip =>
    if skip > 0 then countSubGo p rest (skip - 1)
    else if matchesAt p (c :: rest) then 1 + countSubGo p rest (p.length - 1)
    else countSubGo p rest 0

/-- Python `hay.count(needle)` on character lists: number of
NON-overlapping occurrences, scanning left to right and resuming after the
end of each match.  Python returns `len(hay) + 1` for an empty needle. -/
def countSub (p s : List Char) : Nat :=
  if p.isEmpty then s.length + 1 else countSubGo p s 0

/-- Python `hay.count(needle)` (non-overlapping substring occurrences). -/
def strCount (hay needle : String) : Nat := countSub needle.toList hay.toList

/-- Python `needle in hay` (substring containment test). -/
def containsSubstring (hay needle : String) : Bool := strCount hay needle != 0

/-- Modelled from the spec (§4.2): occurrence count where overlapping
occurrences are also counted — one count per starting position at which the
pattern matches.  This is the comparison definition for claim C7; the source
itself uses the non-overlapping `countSub`. -/
def countSubAll (p : List Char) : List Char → Nat
  | [] => if p.isEmpty then 1 else 0
  | c :: rest => (if matchesAt p (c :: rest) then 1 else 0) + countSubAll p rest

/-- Modelled from the spec: overlapping occurrence count on strings. -/
def strCountOverlapping (hay needle : String) : Nat :=
  countSubAll needle.toList hay.toList

/-- Collapse every run of whitespace into a single space
(Python `re.sub(r"\s+", " ", text)`, ASCII whitespace). -/
def squeezeWs : List Char → List Char
  | [] => []
  | [c] => [if c.isWhitespace then ' ' else c]
  | c :: d :: rest =>
    if c.isWhitespace && d.isWhitespace then squeezeWs (d :: rest)
    else (if c.isWhitespace then ' ' else c) :: squeezeWs (d :: rest)

/-- `FYPAnalyzer.clean_text`: collapse whitespace runs, strip, lower-case.
Non-string/NaN input degrades to `""` before this function is reached. -/
def clean_text (s : String) : String :=
  lowerStr (pyStrip (String.mk (squeezeWs s.toList)))

/-- The fixed domain taxonomy `FYPAnalyzer.domain_keywords`
(`src/main.py` lines 53–119), in declaration order. -/
def domain_keywords : List (String × List String) :=
  [ ("Artificial Intelligence & Machine Learning",
      ["ai", "artificial intelligence", "machine learning", "ml", "deep learning",
       "neural network", "nlp", "natural language processing", "computer vision",
       "recommendation system", "classification", "prediction", "clustering",
       "generative ai", "llm", "large language model"]),
    ("Web Development",
      ["web", "website", "web application", "frontend", "backend", "html", "css",
       "javascript", "react", "angular", "vue", "nodejs", "django", "flask",
       "api", "rest", "graphql", "responsive"]),
    ("Mobile Development",
      ["mobile", "android", "ios", "flutter", "react native", "kotlin", "swift",
       "mobile app", "smartphone", "tablet", "cross-platform"]),
    ("Cybersecurity",
      ["security", "cybersecurity", "encryption", "authentication", "penetration testing",
       "vulnerability", "firewall", "intrusion detection", "malware", "forensics",
       "risk assessment", "compliance", "iso 27001", "gdpr"]),
    ("Data Science & Analytics",
      ["data science", "analytics", "big data", "data mining", "statistics",
       "visualization", "dashboard", "business intelligence", "etl", "data warehouse",
       "pandas", "numpy", "matplotlib", "tableau", "power bi"]),
    ("Internet of Things (IoT)",
      ["iot", "internet of things", "sensor", "embedded", "arduino", "raspberry pi",
       "microcontroller", "smart home", "automation", "monitoring", "rfid", "bluetooth"]),
    ("Blockchain & Cryptocurrency",
      ["blockchain", "cryptocurrency", "bitcoin", "ethereum", "smart contract",
       "decentralized", "crypto", "nft", "defi", "web3"]),
    ("Game Development",
      ["game", "gaming", "unity", "unreal", "game development", "vr", "ar",
       "virtual reality", "augmented reality", "3d", "simulation"]),
    ("Healthcare & Medical",
      ["health", "healthcare", "medical", "patient", "diagnosis", "telemedicine",
       "electronic health record", "ehr", "medical imaging", "drug", "pharmacy"]),
    ("E-commerce & Business",
      ["ecommerce", "e-commerce", "online shop", "marketplace", "inventory",
       "supply chain", "crm", "erp", "business process", "payment"]),
    ("Education & E-learning",
      ["education", "learning", "e-learning", "lms", "student", "teacher",
       "course", "quiz", "examination", "classroom", "school", "university"]),
    ("Social Media & Communication",
      ["social media", "chat", "messaging", "communication", "social network",
       "forum", "blog", "community", "collaboration"]),
    ("Cloud Computing",
      ["cloud", "aws", "azure", "google cloud", "docker", "kubernetes",
       "microservices", "serverless", "saas", "paas", "iaas"]),
    ("Computer Vision",
      ["computer vision", "image processing", "object detection", "face recognition",
       "ocr", "image classification", "video analysis", "opencv"]),
    ("Sports & Fitness",
      ["sports", "fitness", "exercise", "training", "coaching", "athlete",
       "performance", "cricket", "football", "basketball", "workout"]) ]

/-- One entry of the `domains` array of a parsed Gemini JSON response
(missing JSON fields default to `""` / `0` as in `dict.get`). -/
structure GeminiDomainInfo where
  name : String
  confidence : Int
  reasoning : String
deriving DecidableEq

/-- A parsed, truthy Gemini JSON response (`categorize_with_gemini` returned
a dict).  The unused `summary` field is omitted. -/
structure GeminiResult where
  domains : List GeminiDomainInfo
  primary_domain : String
deriving DecidableEq

/-- Evidence recorded for one domain: either the AI reasoning text or the
list of matched keywords. -/
inductive Evidence where
  | reasoning (text : String)
  | keywords (kws : List String)
deriving DecidableEq

/-- One value of the per-record `confidence_scores` dict. -/
structure ConfEntry where
  score : Int
  evidence : Evidence
  method : String
deriving DecidableEq

/-- Python dict assignment `m[k] = v`: update in place if the key is
present (keeping its position), otherwise append. -/
def dictInsert (m : List (String × ConfEntry)) (k : String) (v : ConfEntry) :
    List (String × ConfEntry) :=
  match m with
  | [] => [(k, v)]
  | (k', v') :: rest =>
    if k' = k then (k, v) :: rest else (k', v') :: dictInsert rest k v

/-- The loop over the reported `domains` array (lines 291–302): append every
entry with a non-empty name and confidence ≥ 6, recording its confidence,
reasoning and the `gemini_ai` method tag. -/
def geminiLoop (ds : List GeminiDomainInfo)
    (matched : List String) (conf : List (String × ConfEntry)) :
    List String × List (String × ConfEntry) :=
  match ds with
  | [] => (matched, conf)
  | di :: rest =>
    if di.name ≠ "" ∧ 6 ≤ di.confidence then
      geminiLoop rest (matched ++ [di.name])
        (dictInsert conf di.name ⟨di.confidence, .reasoning di.reasoning, "gemini_ai"⟩)
    else geminiLoop rest matched conf

/-- The AI branch of `categorize_by_domain` (lines 289–312): retain reported
domains with non-empty name and confidence ≥ 6, in reported order, then
insert the designated primary domain at the front only when it is not
already among the retained ones. -/
def geminiStep (g : GeminiResult) : List String × List (String × ConfEntry) :=
  let acc := geminiLoop g.domains [] []
  if g.primary_domain ≠ "" ∧ g.primary_domain ∉ acc.1 then
    (g.primary_domain :: acc.1,
     dictInsert acc.2 g.primary_domain
       ⟨8, .reasoning "Primary domain identified by Gemini AI", "gemini_ai"⟩)
  else acc

/-- The names the AI branch retains from the reported `domains` array
(non-empty name, confidence ≥ 6), in reported order. -/
def retainedNames (g : GeminiResult) : List String :=
  (g.domains.filter (fun di => decide (di.name ≠ "" ∧ 6 ≤ di.confidence))).map
    GeminiDomainInfo.name

/-- The inner keyword loop of `categorize_by_domain` (lines 325–329): sum
the occurrence counts of all keywords of one domain into `score` and
collect those with a non-zero count into `matched_keywords`. -/
def keywordScoreLoop (combined : String) (kws : List String)
    (score : Int) (matched_keywords : List String) : Int × List String :=
  match kws with
  | [] => (score, matched_keywords)
  | kw :: rest =>
    let count := strCount combined (lowerStr kw)
    if count > 0 then
      keywordScoreLoop combined rest (score + (count : Int)) (matched_keywords ++ [kw])
    else keywordScoreLoop combined rest score matched_keywords

/-- One domain's aggregate keyword score and matched-keyword evidence. -/
def keywordScore (combined : String) (kws : List String) : Int × List String :=
  keywordScoreLoop combined kws 0 []

/-- The keyword-fallback scan of `categorize_by_domain` (lines 320–337):
walk the taxonomy in declaration order and append every domain with a
positive aggregate score. -/
def keywordStep (taxo : List (String × List String)) (combined : String)
    (matched : List String) (conf : List (String × ConfEntry)) :
    List String × List (String × ConfEntry) :=
  match taxo with
  | [] => (matched, conf)
  | dk :: rest =>
    let sc := keywordScore combined dk.2
    if sc.1 > 0 then
      keywordStep rest combined (matched ++ [dk.1])
        (dictInsert conf dk.1 ⟨sc.1, .keywords sc.2, "keyword_matching"⟩)
    else keywordStep rest combined matched conf

/-- Step 1 of the resolution pipeline: the AI branch when a parseable truthy
result is available, otherwise nothing. -/
def afterGemini (gr : Option GeminiResult) : List String × List (String × ConfEntry) :=
  match gr with
  | some g => geminiStep g
  | none => ([], [])

/-- Steps 2–3 of the resolution pipeline (lines 314–348): when step 1
produced nothing, run the keyword scan over `title.lower() + " " +
scope.lower()`; when that also produced nothing, fall back to the record's
pre-existing manual label (trimmed, if non-empty). -/
def fallbackStage (title scope : String) (existing : Option String)
    (mc : List String × List (String × ConfEntry)) :
    List String × List (String × ConfEntry) :=
  if mc.1 = [] then
    let combined := lowerStr title ++ " " ++ lowerStr scope
    let mc2 := keywordStep domain_keywords combined mc.1 mc.2
    if mc2.1 = [] then
      match existing with
      | some e =>
        if pyStrip e ≠ "" then
          (mc2.1 ++ [pyStrip e],
           dictInsert mc2.2 (pyStrip e)
             ⟨1, .keywords ["manual_categorization"], "existing_data"⟩)
        else mc2
      | none => mc2
    else mc2
  else mc

/-- Step 4 of the resolution pipeline (lines 350–357): when everything else
produced nothing, assign the sentinel domain `Other`. -/
def defaultStage (mc : List String × List (String × ConfEntry)) :
    List String × List (String × ConfEntry) :=
  if mc.1 = [] then (["Other"], dictInsert mc.2 "Other" ⟨1, .keywords [], "default"⟩)
  else mc

/-- The per-record output row of `categorize_by_domain` (lines 359–366). -/
structure DomainResult where
  project_id : String
  project_title : String
  domains : List String
  confidence_scores : List (String × ConfEntry)
  primary_domain : String
  categorization_method : String
deriving DecidableEq

/-- The per-record body of `FYPAnalyzer.categorize_by_domain`
(`src/main.py` lines 280–366), with the parsed adapter response passed in as
`gemini_result` (`none` = adapter absent, call failed, unparseable JSON, or
falsy parse result). -/
def categorizeRow (gemini_result : Option GeminiResult)
    (project_id title scope : String) (existing : Option String) : DomainResult :=
  let mc := defaultStage (fallbackStage title scope existing (afterGemini gemini_result))
  { project_id := project_id
    project_title := title
    domains := mc.1
    confidence_scores := mc.2
    primary_domain := mc.1.headD "Other"
    categorization_method := if gemini_result.isSome then "gemini_ai" else "keyword_matching" }

/-- The per-record pipeline including the AI-attempt guard (line 282): the
adapter is consulted only when a model is configured and both title and
scope are non-empty. -/
def resolveRow (hasModel : Bool) (adapter : String → String → Option GeminiResult)
    (project_id title scope : String) (existing : Option String) : DomainResult :=
  let gemini_result :=
    if hasModel && (title != "") && (scope != "") then adapter title scope else none
  categorizeRow gemini_result project_id title scope existing

/-- The analyzer's constructor-initialized state (`FYPAnalyzer.__init__`,
lines 27–53).  `gemini_model` records whether a usable model handle exists;
external initialization failures are caught, never raised. -/
structure AnalyzerState where
  gemini_model : Bool
  similarity_threshold : ℚ
  domain_keywords : List (String × List String)
deriving DecidableEq

/-- `FYPAnalyzer.__init__(gemini_api_key)`: always succeeds; installs the
fixed taxonomy and threshold 0.3.  `geminiAvailable` models the
`GEMINI_AVAILABLE` import flag and `initOk` the outcome of the external
`genai` initialization (whose exceptions are caught and turned into a
`None` model). -/
def FYPAnalyzer.init (gemini_api_key : Option String) (geminiAvailable initOk : Bool) :
    AnalyzerState :=
  { gemini_model := gemini_api_key.isSome && geminiAvailable && initOk
    similarity_threshold := Rat.divInt 3 10
    domain_keywords := FYP.domain_keywords }

/-- The post-construction attribute assignment
`analyzer.similarity_threshold = t` used by `demo.py` line 23 and
`web_app.py` line 113: plain field update, no validation. -/
def setSimilarityThreshold (st : AnalyzerState) (t : ℚ) : AnalyzerState :=
  { st with similarity_threshold := t }

/-- One row of the loaded dataframe, restricted to the columns the
similarity computation and domain lookup read.  `cleaned_title` and
`cleaned_scope` are produced by `clean_text` at load time. -/
structure Row where
  short_title : String
  project_title : String
  project_scope : String
  cleaned_title : String
  cleaned_scope : String
  primary_domain : Option String
deriving DecidableEq

/-- One row of the similarity output table (lines 454–461).  The free-text
`explanation` column is omitted: it is reporting-only prose whose token
order depends on Python set iteration order. -/
structure SimilarPair where
  project_1_id : String
  project_2_id : String
  similarity_score : ℚ
  similarity_level : String
  overlapping_domains : List String
deriving DecidableEq

/-- The tier ladder of `calculate_similarity` (lines 438–445), applied to
the raw (unrounded) cosine score with hard-coded boundaries 0.7/0.5/0.3. -/
def similarityLevel (score : ℚ) : String :=
  if score > Rat.divInt 7 10 then "Very High"
  else if score > Rat.divInt 5 10 then "High"
  else if score > Rat.divInt 3 10 then "Medium"
  else "Low"

/-- Round-half-to-even to an integer, the semantics of Python's `round`
(the float representation itself is modelled exactly by ℚ).  Stated with
`Rat.divInt` so that it evaluates by kernel reduction: `Rat.divInt (2 * n + 1) 2`
is the midpoint `n + 1/2` of the floor interval. -/
def roundHalfEven (x : ℚ) : ℤ :=
  let n := ⌊x⌋
  if x < Rat.divInt (2 * n + 1) 2 then n
  else if Rat.divInt (2 * n + 1) 2 < x then n + 1
  else if n % 2 = 0 then n else n + 1

/-- Python `round(x, 3)`: round half-to-even at the third decimal.
`Rat.divInt (q.num * 1000) q.den` is `q * 1000` and the outer `Rat.divInt`
divides the integer result by 1000. -/
def round3 (q : ℚ) : ℚ :=
  Rat.divInt (roundHalfEven (Rat.divInt (q.num * 1000) q.den)) 1000

/-- `FYPAnalyzer.get_project_domains` (lines 476–501): find the first row
with the given `short_title`, then return a SINGLETON holding the first
taxonomy domain one of whose keywords occurs in the row's combined cleaned
text, `["Other"]` when no keyword occurs, and `[]` for an unknown id. -/
def get_project_domains (project_id : String) (df : List Row) : List String :=
  match df.find? (fun row => row.short_title == project_id) with
  | none => []
  | some row =>
    let combined := row.cleaned_title ++ " " ++ row.cleaned_scope
    match domain_keywords.find?
        (fun dk => dk.2.any (fun kw => containsSubstring combined (lowerStr kw))) with
    | some dk => [dk.1]
    | none => ["Other"]

/-- The text-collection loop of `calculate_similarity` (lines 392–402):
keep, in row order, every row whose combined cleaned text is non-blank,
together with its project id. -/
def usableEntries (df : List Row) : List (String × String) :=
  df.filterMap (fun row =>
    let combined := row.cleaned_title ++ " " ++ row.cleaned_scope
    if pyStrip combined ≠ "" then some (combined, row.short_title) else none)

/-- The pair-discovery double loop of `calculate_similarity` (lines
426–461): upper triangle `i < j` over the usable entries, retaining a pair
iff the RAW cosine value strictly exceeds the threshold; the reported score
is rounded to 3 decimals, the tier is computed from the raw value, and the
domain overlap comes from `get_project_domains` on the full dataframe.
`sim i j` is the cosine-similarity matrix of the external TF-IDF
vectorizer, abstracted as an input. -/
def discoveredPairs (df : List Row) (sim : Nat → Nat → ℚ) (threshold : ℚ) :
    List SimilarPair :=
  let entries := usableEntries df
  let n := entries.length
  (List.range n).flatMap (fun i =>
    (List.range n).flatMap (fun j =>
      if i < j ∧ sim i j > threshold then
        let pid1 := (entries.getD i ("", "")).2
        let pid2 := (entries.getD j ("", "")).2
        let proj1_domains := get_project_domains pid1 df
        let proj2_domains := get_project_domains pid2 df
        [{ project_1_id := pid1
           project_2_id := pid2
           similarity_score := round3 (sim i j)
           similarity_level := similarityLevel (sim i j)
           overlapping_domains := proj1_domains.filter (fun d => decide (d ∈ proj2_domains)) }]
      else []))

/-- Insert a pair into an ascending-by-score list, after any equal scores
(the stable insertion step of numpy's small-array ascending argsort). -/
def insertAsc (p : SimilarPair) : List SimilarPair → List SimilarPair
  | [] => [p]
  | q :: qs =>
    if p.similarity_score < q.similarity_score then p :: q :: qs
    else q :: insertAsc p qs

/-- Stable ascending sort by reported score (left fold of stable
insertion). -/
def stableSortAsc (l : List SimilarPair) : List SimilarPair :=
  l.foldl (fun acc p => insertAsc p acc) []

/-- `results_df.sort_values("similarity_score", ascending=False)` (line
467).  The program guarantees only a descending arrangement of the
discovered pairs: pandas uses numpy's default `quicksort` kind, whose
relative order of equal keys is documented as unspecified, so the sort is
determined only up to permutations of equal scores.  Because a shallow
embedding needs an executable function, this definition fixes one
admissible representative of that family (a stable descending arrangement,
the behavior observed below numpy's small-array insertion-sort cutoff);
the representative's tie order is a MODELLING CHOICE, not a property of
the program, and no theorem in this file depends on it — the theorems use
only facts shared by every admissible arrangement: which pairs appear
(`mem_pandasSortDesc`) and that scores are non-increasing
(`pandasSortDesc_pairwise`). -/
def pandasSortDesc (l : List SimilarPair) : List SimilarPair :=
  (stableSortAsc l.reverse).reverse

/-- `FYPAnalyzer.calculate_similarity` (lines 379–470) with the external
TF-IDF cosine matrix abstracted as `sim`: with fewer than two usable texts
return the empty table, otherwise discover, retain and sort the pairs. -/
def calculate_similarity (df : List Row) (sim : Nat → Nat → ℚ) (threshold : ℚ) :
    List SimilarPair :=
  if (usableEntries df).length < 2 then []
  else pandasSortDesc (discoveredPairs df sim threshold)

/-- Modelled from the spec (claim C7): a domain's aggregate keyword score
as the claim words it — the sum over the domain's keyword phrases of the
occurrence count of the lower-cased phrase in the combined text (with the
occurrence count amended to the source's non-overlapping `strCount`). -/
def domainScore (combined : String) (kws : List String) : Int :=
  (kws.map (fun kw => (strCount combined (lowerStr kw) : Int))).sum

/-- Modelled from the spec (claim C7): the domains the keyword fallback
emits — exactly those with positive aggregate score, in taxonomy
declaration order. -/
def specKeywordDomains (combined : String) : List String :=
  (domain_keywords.filter (fun dk => decide (0 < domainScore combined dk.2))).map Prod.fst

/-- Modelled from the spec (claim C7): the per-domain bookkeeping the
keyword fallback records — for each emitted domain its aggregate score, the
keywords with non-zero count as evidence, and the `keyword_matching` method
tag. -/
def specKeywordConf (combined : String) : List (String × ConfEntry) :=
  domain_keywords.filterMap (fun dk =>
    if 0 < domainScore combined dk.2 then
      some (dk.1,
        ⟨domainScore combined dk.2,
         .keywords (dk.2.filter (fun kw => containsSubstring combined (lowerStr kw))),
         "keyword_matching"⟩)
    else none)

/-- Concrete adapter response: parseable, truthy JSON with an empty
`domains` array and empty primary (`{"domains": [], "primary_domain": ""}`). -/
def grEmptyTruthy : GeminiResult := { domains := [], primary_domain := "" }

/-- Concrete adapter response whose designated primary domain is also
independently reported at confidence ≥ 6 (but not first). -/
def grPrimaryRetained : GeminiResult :=
  { domains := [⟨"Web Development", 7, "uses react"⟩, ⟨"Cybersecurity", 8, "auth focus"⟩],
    primary_domain := "Cybersecurity" }

/-- Concrete adapter response reporting the same domain name twice, both at
confidence ≥ 6. -/
def grDuplicated : GeminiResult :=
  { domains := [⟨"Web Development", 7, "first mention"⟩, ⟨"Web Development", 8, "second mention"⟩],
    primary_domain := "" }

/-- Concrete adapter response with a single retained domain. -/
def grSingle : GeminiResult :=
  { domains := [⟨"Web Development", 7, "frontend work"⟩], primary_domain := "" }

/-- Record whose text matches both the Web Development and the Game
Development taxonomy entries. -/
def rowWebGame : Row :=
  { short_title := "p1", project_title := "web game", project_scope := "",
    cleaned_title := "web game", cleaned_scope := "", primary_domain := none }

/-- Second record matching the same two taxonomy entries. -/
def rowGameWeb : Row :=
  { short_title := "p2", project_title := "game web", project_scope := "",
    cleaned_title := "game web", cleaned_scope := "", primary_domain := none }

/-- Record whose text matches no taxonomy keyword. -/
def rowAlpha : Row :=
  { short_title := "a", project_title := "alpha", project_scope := "",
    cleaned_title := "alpha", cleaned_scope := "", primary_domain := none }

/-- Second keyword-free record. -/
def rowBeta : Row :=
  { short_title := "b", project_title := "beta", project_scope := "",
    cleaned_title := "beta", cleaned_scope := "", primary_domain := none }

/-- Third keyword-free record. -/
def rowGamma : Row :=
  { short_title := "c", project_title := "gamma", project_scope := "",
    cleaned_title := "gamma", cleaned_scope := "", primary_domain := none }

/-- Record with empty title and scope (blank combined text). -/
def rowBlank : Row :=
  { short_title := "blank", project_title := "", project_scope := "",
    cleaned_title := "", cleaned_scope := "", primary_domain := none }

section SortLemmas

/-- Shorthand for the descending comparison used on reported scores. -/
theorem mem_insertAsc (p q : SimilarPair) (l : List SimilarPair) :
    q ∈ insertAsc p l ↔ q = p ∨ q ∈ l := by
  induction l with
  | nil => simp [insertAsc]
  | cons x xs ih =>
    simp only [insertAsc]
    by_cases hlt : p.similarity_score < x.similarity_score
    · rw [if_pos hlt]
      simp [List.mem_cons]
    · rw [if_neg hlt]
      simp only [List.mem_cons, ih]
      tauto

theorem insertAsc_pairwise (p : SimilarPair) (l : List SimilarPair)
    (h : l.Pairwise (fun a b => a.similarity_score ≤ b.similarity_score)) :
    (insertAsc p l).Pairwise (fun a b => a.similarity_score ≤ b.similarity_score) := by
  induction l with
  | nil => simp [insertAsc]
  | cons x xs ih =>
    rcases List.pairwise_cons.mp h with ⟨hx, hxs⟩
    simp only [insertAsc]
    by_cases hlt : p.similarity_score < x.similarity_score
    · rw [if_pos hlt]
      refine List.pairwise_cons.mpr ⟨?_, h⟩
      intro b hb
      rcases List.mem_cons.mp hb with rfl | hb
      · exact le_of_lt hlt
      · exact le_trans (le_of_lt hlt) (hx b hb)
    · rw [if_neg hlt]
      refine List.pairwise_cons.mpr ⟨?_, ih hxs⟩
      intro b hb
      rcases (mem_insertAsc p b xs).mp hb with rfl | hb
      · exact le_of_not_lt hlt
      · exact hx b hb

theorem insertAsc_filter_ne (p : SimilarPair) (l : List SimilarPair) (s : ℚ)
    (h : p.similarity_score ≠ s) :
    (insertAsc p l).filter (fun q => decide (q.similarity_score = s))
      = l.filter (fun q => decide (q.similarity_score = s)) := by
  induction l with
  | nil => simp [insertAsc, h]
  | cons x xs ih =>
    simp only [insertAsc]
    by_cases hlt : p.similarity_score < x.similarity_score
    · rw [if_pos hlt]
      simp [List.filter_cons, h]
    · rw [if_neg hlt]
      simp [List.filter_cons, ih]

theorem insertAsc_filter_eq (p : SimilarPair) (l : List SimilarPair) (s : ℚ)
    (h : p.similarity_score = s)
    (hs : l.Pairwise (fun a b => a.similarity_score ≤ b.similarity_score)) :
    (insertAsc p l).filter (fun q => decide (q.similarity_score = s))
      = l.filter (fun q => decide (q.similarity_score = s)) ++ [p] := by
  induction l with
  | nil => simp [insertAsc, h]
  | cons x xs ih =>
    rcases List.pairwise_cons.mp hs with ⟨hx, hxs⟩
    simp only [insertAsc]
    by_cases hlt : p.similarity_score < x.similarity_score
    · rw [if_pos hlt]
      have hnil : (x :: xs).filter (fun q => decide (q.similarity_score = s)) = [] := by
        refine List.filter_eq_nil_iff.mpr ?_
        intro q hq
        have hgt : s < q.similarity_score := by
          rcases List.mem_cons.mp hq with rfl | hq
          · exact h ▸ hlt
          · exact lt_of_lt_of_le (h ▸ hlt) (hx q hq)
        simp [ne_of_gt hgt]
      rw [List.filter_cons_of_pos (by simp [h]), hnil]
      simp
    · rw [if_neg hlt]
      by_cases hxv : x.similarity_score = s
      · rw [List.filter_cons_of_pos (by simp [hxv]), List.filter_cons_of_pos (by simp [hxv]),
          ih hxs]
        simp
      · rw [List.filter_cons_of_neg (by simp [hxv]), List.filter_cons_of_neg (by simp [hxv]),
          ih hxs]

theorem stableSortAsc_spec (l : List SimilarPair) :
    ∀ acc : List SimilarPair,
      acc.Pairwise (fun a b => a.similarity_score ≤ b.similarity_score) →
      ((l.foldl (fun acc p => insertAsc p acc) acc).Pairwise
          (fun a b => a.similarity_score ≤ b.similarity_score)
        ∧ (∀ q, q ∈ l.foldl (fun acc p => insertAsc p acc) acc ↔ q ∈ acc ∨ q ∈ l)
        ∧ ∀ s : ℚ,
            (l.foldl (fun acc p => insertAsc p acc) acc).filter
                (fun q => decide (q.similarity_score = s))
              = acc.filter (fun q => decide (q.similarity_score = s))
                ++ l.filter (fun q => decide (q.similarity_score = s))) := by
  induction l with
  | nil => intro acc hacc; simp [hacc]
  | cons p ps ih =>
    intro acc hacc
    have hstep := ih (insertAsc p acc) (insertAsc_pairwise p acc hacc)
    refine ⟨hstep.1, ?_, ?_⟩
    · intro q
      rw [List.foldl_cons, hstep.2.1 q, mem_insertAsc, List.mem_cons]
      tauto
    · intro s
      rw [List.foldl_cons, hstep.2.2 s]
      by_cases hp : p.similarity_score = s
      · rw [insertAsc_filter_eq p acc s hp hacc, List.filter_cons_of_pos (by simp [hp])]
        simp
      · rw [insertAsc_filter_ne p acc s hp, List.filter_cons_of_neg (by simp [hp])]

theorem pandasSortDesc_pairwise (l : List SimilarPair) :
    (pandasSortDesc l).Pairwise (fun a b => b.similarity_score ≤ a.similarity_score) := by
  unfold pandasSortDesc stableSortAsc
  rw [List.pairwise_reverse]
  exact (stableSortAsc_spec l.reverse [] (by simp)).1

theorem mem_pandasSortDesc (q : SimilarPair) (l : List SimilarPair) :
    q ∈ pandasSortDesc l ↔ q ∈ l := by
  unfold pandasSortDesc stableSortAsc
  rw [List.mem_reverse, (stableSortAsc_spec l.reverse [] (by simp)).2.1 q]
  simp

end SortLemmas

section RoundLemmas

theorem roundHalfEven_bounds (x : ℚ) :
    x - 1 / 2 ≤ (roundHalfEven x : ℚ) ∧ (roundHalfEven x : ℚ) ≤ x + 1 / 2 := by
  have h1 : (⌊x⌋ : ℚ) ≤ x := Int.floor_le x
  have h2 : x < (⌊x⌋ : ℚ) + 1 := Int.lt_floor_add_one x
  have hmid : (Rat.divInt (2 * ⌊x⌋ + 1) 2 : ℚ) = (⌊x⌋ : ℚ) + 1 / 2 := by
    rw [Rat.divInt_eq_div]
    push_cast
    ring
  simp only [roundHalfEven]
  split_ifs with ha hb hc <;> rw [hmid] at * <;> push_cast <;> constructor <;> linarith

theorem round3_eq (q : ℚ) : round3 q = (roundHalfEven (q * 1000) : ℚ) / 1000 := by
  have hq : (Rat.divInt (q.num * 1000) q.den : ℚ) = q * 1000 := by
    rw [Rat.divInt_eq_div]
    push_cast
    rw [mul_div_right_comm, Rat.num_div_den]
  unfold round3
  rw [hq, Rat.divInt_eq_div]
  norm_num

theorem round3_bounds (q : ℚ) : q - 1 / 2000 ≤ round3 q ∧ round3 q ≤ q + 1 / 2000 := by
  rw [round3_eq]
  have h := roundHalfEven_bounds (q * 1000)
  constructor
  · rw [le_div_iff₀ (by norm_num : (0 : ℚ) < 1000)]
    linarith [h.1]
  · rw [div_le_iff₀ (by norm_num : (0 : ℚ) < 1000)]
    linarith [h.2]

theorem round3_le_one {q : ℚ} (hq : q ≤ 1) : round3 q ≤ 1 := by
  rw [round3_eq]
  have h := (roundHalfEven_bounds (q * 1000)).2
  have hle : (roundHalfEven (q * 1000) : ℚ) ≤ 1000 := by
    have hlt : (roundHalfEven (q * 1000) : ℚ) < ((1001 : ℤ) : ℚ) := by
      push_cast
      linarith
    have : roundHalfEven (q * 1000) < 1001 := by exact_mod_cast hlt
    exact_mod_cast Int.lt_add_one_iff.mp this
  rw [div_le_one (by norm_num : (0 : ℚ) < 1000)]
  exact hle

end RoundLemmas

section DiscoveryLemmas

theorem mem_discoveredPairs {df : List Row} {sim : Nat → Nat → ℚ} {t : ℚ}
    {p : SimilarPair} (hp : p ∈ discoveredPairs df sim t) :
    ∃ i j, i < j ∧ t < sim i j
      ∧ p = { project_1_id := ((usableEntries df).getD i ("", "")).2
              project_2_id := ((usableEntries df).getD j ("", "")).2
              similarity_score := round3 (sim i j)
              similarity_level := similarityLevel (sim i j)
              overlapping_domains :=
                (get_project_domains ((usableEntries df).getD i ("", "")).2 df).filter
                  (fun d => decide
                    (d ∈ get_project_domains ((usableEntries df).getD j ("", "")).2 df)) } := by
  simp only [discoveredPairs, List.mem_flatMap, List.mem_range] at hp
  obtain ⟨i, _, j, _, hpij⟩ := hp
  by_cases hc : i < j ∧ sim i j > t
  · rw [if_pos hc] at hpij
    simp only [List.mem_singleton] at hpij
    exact ⟨i, j, hc.1, hc.2, hpij⟩
  · rw [if_neg hc] at hpij
    simp at hpij

theorem discoveredPairs_of_short {df : List Row} {sim : Nat → Nat → ℚ} {t : ℚ}
    (h : (usableEntries df).length < 2) : discoveredPairs df sim t = [] := by
  unfold discoveredPairs
  refine List.flatMap_eq_nil_iff.mpr ?_
  intro i hi
  refine List.flatMap_eq_nil_iff.mpr ?_
  intro j hj
  rw [List.mem_range] at hi hj
  rw [if_neg]
  rintro ⟨hij, -⟩
  omega

end DiscoveryLemmas

section PipelineLemmas

theorem mem_keys_dictInsert (c : List (String × ConfEntry)) (k : String) (v : ConfEntry)
    (d : String) :
    d ∈ (dictInsert c k v).map Prod.fst ↔ d ∈ c.map Prod.fst ∨ d = k := by
  induction c with
  | nil => simp [dictInsert]
  | cons x xs ih =>
    obtain ⟨k', v'⟩ := x
    simp only [dictInsert]
    by_cases hk : k' = k
    · rw [if_pos hk]
      subst hk
      simp only [List.map_cons, List.mem_cons]
      tauto
    · rw [if_neg hk]
      simp only [List.map_cons, List.mem_cons, ih]
      tauto

theorem mem_dictInsert (c : List (String × ConfEntry)) (k : String) (v : ConfEntry)
    (e : String × ConfEntry) (he : e ∈ dictInsert c k v) : e ∈ c ∨ e = (k, v) := by
  induction c with
  | nil => simpa [dictInsert] using he
  | cons x xs ih =>
    obtain ⟨k', v'⟩ := x
    simp only [dictInsert] at he
    by_cases hk : k' = k
    · rw [if_pos hk] at he
      rcases List.mem_cons.mp he with rfl | he
      · tauto
      · exact Or.inl (List.mem_cons_of_mem _ he)
    · rw [if_neg hk] at he
      rcases List.mem_cons.mp he with rfl | he
      · exact Or.inl (List.mem_cons_self _ _)
      · rcases ih he with h | h
        · exact Or.inl (List.mem_cons_of_mem _ h)
        · tauto

theorem dictInsert_of_fresh (c : List (String × ConfEntry)) (k : String) (v : ConfEntry)
    (h : k ∉ c.map Prod.fst) : dictInsert c k v = c ++ [(k, v)] := by
  induction c with
  | nil => simp [dictInsert]
  | cons x xs ih =>
    obtain ⟨k', v'⟩ := x
    simp only [List.map_cons, List.mem_cons] at h
    push_neg at h
    simp only [dictInsert]
    rw [if_neg (Ne.symm h.1), ih h.2]
    simp

/-- The names retained by `geminiLoop`. -/
theorem geminiLoop_fst (ds : List GeminiDomainInfo) :
    ∀ (m : List String) (c : List (String × ConfEntry)),
      (geminiLoop ds m c).1
        = m ++ (ds.filter (fun di => decide (di.name ≠ "" ∧ 6 ≤ di.confidence))).map
            GeminiDomainInfo.name := by
  induction ds with
  | nil => intro m c; simp [geminiLoop]
  | cons di rest ih =>
    intro m c
    simp only [geminiLoop]
    by_cases hdi : di.name ≠ "" ∧ 6 ≤ di.confidence
    · rw [if_pos hdi, ih, List.filter_cons_of_pos (by simpa using hdi)]
      simp
    · rw [if_neg hdi, ih, List.filter_cons_of_neg (by simpa using hdi)]

theorem geminiLoop_keys (ds : List GeminiDomainInfo) :
    ∀ (m : List String) (c : List (String × ConfEntry)),
      (∀ d, d ∈ m ↔ d ∈ c.map Prod.fst) →
      ∀ d, d ∈ (geminiLoop ds m c).1 ↔ d ∈ (geminiLoop ds m c).2.map Prod.fst := by
  induction ds with
  | nil => intro m c h; simpa [geminiLoop] using h
  | cons di rest ih =>
    intro m c h
    simp only [geminiLoop]
    by_cases hdi : di.name ≠ "" ∧ 6 ≤ di.confidence
    · rw [if_pos hdi]
      refine ih _ _ ?_
      intro d
      rw [List.mem_append, List.mem_singleton, mem_keys_dictInsert, h d]
    · rw [if_neg hdi]
      exact ih _ _ h

theorem geminiLoop_methods (ds : List GeminiDomainInfo) :
    ∀ (m : List String) (c : List (String × ConfEntry)),
      (∀ e ∈ c, (Prod.snd e).method = "gemini_ai") →
      ∀ e ∈ (geminiLoop ds m c).2, (Prod.snd e).method = "gemini_ai" := by
  induction ds with
  | nil => intro m c h; simpa [geminiLoop] using h
  | cons di rest ih =>
    intro m c h
    simp only [geminiLoop]
    by_cases hdi : di.name ≠ "" ∧ 6 ≤ di.confidence
    · rw [if_pos hdi]
      refine ih _ _ ?_
      intro e he
      rcases mem_dictInsert _ _ _ _ he with h1 | h1
      · exact h e h1
      · subst h1; rfl
    · rw [if_neg hdi]
      exact ih _ _ h

/-- The matched-domain list produced by the AI branch. -/
theorem geminiStep_fst (g : GeminiResult) :
    (geminiStep g).1
      = if g.primary_domain ≠ "" ∧ g.primary_domain ∉ retainedNames g then
          g.primary_domain :: retainedNames g
        else retainedNames g := by
  have hfst : (geminiLoop g.domains [] []).1 = retainedNames g := by
    rw [geminiLoop_fst g.domains [] []]
    simp [retainedNames]
  simp only [geminiStep]
  rw [hfst]
  by_cases hg : g.primary_domain ≠ "" ∧ g.primary_domain ∉ retainedNames g
  · rw [if_pos hg, if_pos hg]
  · rw [if_neg hg, if_neg hg]
    exact hfst

theorem geminiStep_keys (g : GeminiResult) (d : String) :
    d ∈ (geminiStep g).1 ↔ d ∈ (geminiStep g).2.map Prod.fst := by
  have hk := geminiLoop_keys g.domains [] [] (by simp) d
  simp only [geminiStep]
  by_cases hg : g.primary_domain ≠ ""
      ∧ g.primary_domain ∉ (geminiLoop g.domains [] []).1
  · rw [if_pos hg]
    simp only [List.mem_cons, mem_keys_dictInsert, hk]
    tauto
  · rw [if_neg hg]
    exact hk

theorem geminiStep_methods (g : GeminiResult) (e : String × ConfEntry)
    (he : e ∈ (geminiStep g).2) : (Prod.snd e).method = "gemini_ai" := by
  have hm := geminiLoop_methods g.domains [] [] (by simp)
  simp only [geminiStep] at he
  by_cases hg : g.primary_domain ≠ ""
      ∧ g.primary_domain ∉ (geminiLoop g.domains [] []).1
  · rw [if_pos hg] at he
    simp only at he
    rcases mem_dictInsert _ _ _ _ he with h1 | h1
    · exact hm e h1
    · subst h1; rfl
  · rw [if_neg hg] at he
    exact hm e he

/-- The value and evidence computed by the per-domain keyword loop. -/
theorem keywordScoreLoop_spec (combined : String) (kws : List String) :
    ∀ (sc : Int) (mk : List String),
      keywordScoreLoop combined kws sc mk
        = (sc + domainScore combined kws,
           mk ++ kws.filter (fun kw => containsSubstring combined (lowerStr kw))) := by
  induction kws with
  | nil => intro sc mk; simp [keywordScoreLoop, domainScore]
  | cons kw rest ih =>
    intro sc mk
    simp only [keywordScoreLoop]
    by_cases hc : strCount combined (lowerStr kw) > 0
    · rw [if_pos hc, ih]
      have hcs : containsSubstring combined (lowerStr kw) = true := by
        simp only [containsSubstring, ne_eq, bne_iff_ne]
        omega
      rw [List.filter_cons_of_pos (by simpa using hcs)]
      simp [domainScore, add_assoc]
    · rw [if_neg hc, ih]
      have hc0 : strCount combined (lowerStr kw) = 0 := by omega
      have hcs : containsSubstring combined (lowerStr kw) = false := by
        simp [containsSubstring, hc0]
      rw [List.filter_cons_of_neg (by simp [hcs])]
      simp [domainScore, hc0]

theorem keywordScore_spec (combined : String) (kws : List String) :
    keywordScore combined kws
      = (domainScore combined kws,
         kws.filter (fun kw => containsSubstring combined (lowerStr kw))) := by
  rw [keywordScore, keywordScoreLoop_spec]
  simp

theorem keywordStep_fst (combined : String) :
    ∀ (taxo : List (String × List String)) (m : List String)
      (c : List (String × ConfEntry)),
      (keywordStep taxo combined m c).1
        = m ++ (taxo.filter (fun dk => decide (0 < (keywordScore combined dk.2).1))).map
            Prod.fst := by
  intro taxo
  induction taxo with
  | nil => intro m c; simp [keywordStep]
  | cons dk rest ih =>
    intro m c
    simp only [keywordStep]
    by_cases hp : (keywordScore combined dk.2).1 > 0
    · rw [if_pos hp, ih, List.filter_cons_of_pos (by simpa using hp)]
      simp
    · rw [if_neg hp, ih, List.filter_cons_of_neg (by simpa using hp)]

theorem keywordStep_keys (combined : String) :
    ∀ (taxo : List (String × List String)) (m : List String)
      (c : List (String × ConfEntry)),
      (∀ d, d ∈ m ↔ d ∈ c.map Prod.fst) →
      ∀ d, d ∈ (keywordStep taxo combined m c).1
        ↔ d ∈ (keywordStep taxo combined m c).2.map Prod.fst := by
  intro taxo
  induction taxo with
  | nil => intro m c h; simpa [keywordStep] using h
  | cons dk rest ih =>
    intro m c h
    simp only [keywordStep]
    by_cases hp : (keywordScore combined dk.2).1 > 0
    · rw [if_pos hp]
      refine ih _ _ ?_
      intro d
      rw [List.mem_append, List.mem_singleton, mem_keys_dictInsert, h d]
    · rw [if_neg hp]
      exact ih _ _ h

/-- Full characterization of the keyword scan when the scanned taxonomy has
distinct domain names, none of which is already a key of the confidence
dict. -/
theorem keywordStep_eq (combined : String) :
    ∀ (taxo : List (String × List String)) (m : List String)
      (c : List (String × ConfEntry)),
      (taxo.map Prod.fst).Nodup →
      (∀ k ∈ taxo.map Prod.fst, k ∉ c.map Prod.fst) →
      keywordStep taxo combined m c
        = (m ++ (taxo.filter (fun dk => decide (0 < (keywordScore combined dk.2).1))).map
              Prod.fst,
           c ++ taxo.filterMap (fun dk =>
             if 0 < (keywordScore combined dk.2).1 then
               some (dk.1,
                 ⟨(keywordScore combined dk.2).1, .keywords (keywordScore combined dk.2).2,
                  "keyword_matching"⟩)
             else none)) := by
  intro taxo
  induction taxo with
  | nil => intro m c _ _; simp [keywordStep]
  | cons dk rest ih =>
    intro m c hnd hf
    rw [List.map_cons, List.nodup_cons] at hnd
    have hfh : dk.1 ∉ c.map Prod.fst := hf dk.1 (by simp)
    simp only [keywordStep]
    by_cases hp : (keywordScore combined dk.2).1 > 0
    · have hfresh : ∀ k ∈ rest.map Prod.fst,
          k ∉ (c ++ [(dk.1,
            (⟨(keywordScore combined dk.2).1, .keywords (keywordScore combined dk.2).2,
              "keyword_matching"⟩ : ConfEntry))]).map Prod.fst := by
        intro k hk
        simp only [List.map_append, List.mem_append, List.map_cons, List.map_nil,
          List.mem_singleton]
        push_neg
        refine ⟨hf k (by simp [hk]), ?_⟩
        intro hc
        exact hnd.1 (hc ▸ hk)
      rw [if_pos hp, dictInsert_of_fresh _ _ _ hfh, ih (m ++ [dk.1]) _ hnd.2 hfresh,
        List.filter_cons_of_pos (by simpa using hp)]
      simp [List.filterMap_cons, hp]
    · rw [if_neg hp, ih m c hnd.2 (fun k hk => hf k (by simp [hk])),
        List.filter_cons_of_neg (by simpa using hp)]
      simp [List.filterMap_cons, hp]

theorem fallbackStage_of_ne (title scope : String) (existing : Option String)
    (mc : List String × List (String × ConfEntry)) (h : mc.1 ≠ []) :
    fallbackStage title scope existing mc = mc := by
  simp only [fallbackStage]
  rw [if_neg h]

theorem defaultStage_of_ne (mc : List String × List (String × ConfEntry))
    (h : mc.1 ≠ []) : defaultStage mc = mc := by
  simp only [defaultStage]
  rw [if_neg h]

theorem defaultStage_ne_nil (mc : List String × List (String × ConfEntry)) :
    (defaultStage mc).1 ≠ [] := by
  simp only [defaultStage]
  by_cases h : mc.1 = []
  · rw [if_pos h]
    simp
  · rw [if_neg h]
    exact h

theorem fallbackStage_keys (title scope : String) (existing : Option String)
    (mc : List String × List (String × ConfEntry))
    (h : ∀ d, d ∈ mc.1 ↔ d ∈ mc.2.map Prod.fst) :
    ∀ d, d ∈ (fallbackStage title scope existing mc).1
      ↔ d ∈ (fallbackStage title scope existing mc).2.map Prod.fst := by
  simp only [fallbackStage]
  by_cases hm : mc.1 = []
  · rw [if_pos hm]
    have hk := keywordStep_keys (lowerStr title ++ " " ++ lowerStr scope)
      domain_keywords mc.1 mc.2 h
    by_cases h2 : (keywordStep domain_keywords (lowerStr title ++ " " ++ lowerStr scope)
        mc.1 mc.2).1 = []
    · rw [if_pos h2]
      cases existing with
      | none => exact hk
      | some e =>
        dsimp only
        by_cases he : pyStrip e ≠ ""
        · rw [if_pos he]
          intro d
          simp only [List.map_append, List.mem_append, List.mem_singleton,
            mem_keys_dictInsert, hk d]
        · rw [if_neg he]
          exact hk
    · rw [if_neg h2]
      exact hk
  · rw [if_neg hm]
    exact h

theorem defaultStage_keys (mc : List String × List (String × ConfEntry))
    (h : ∀ d, d ∈ mc.1 ↔ d ∈ mc.2.map Prod.fst) :
    ∀ d, d ∈ (defaultStage mc).1 ↔ d ∈ (defaultStage mc).2.map Prod.fst := by
  simp only [defaultStage]
  by_cases hm : mc.1 = []
  · rw [if_pos hm]
    intro d
    have hnot : d ∉ mc.2.map Prod.fst := fun hc => by simpa [hm] using (h d).mpr hc
    rw [mem_keys_dictInsert]
    simp [hnot]
  · rw [if_neg hm]
    exact h

theorem domain_keys_nodup : (domain_keywords.map Prod.fst).Nodup := by decide

theorem keywordStep_fst_nodup (combined : String) (c : List (String × ConfEntry)) :
    (keywordStep domain_keywords combined [] c).1.Nodup := by
  rw [keywordStep_fst]
  simp only [List.nil_append]
  exact List.Nodup.sublist ((List.filter_sublist _).map _) domain_keys_nodup

theorem fallback_default_nodup (title scope : String) (existing : Option String)
    (mc : List String × List (String × ConfEntry)) (h : mc.1.Nodup) :
    (defaultStage (fallbackStage title scope existing mc)).1.Nodup := by
  by_cases hm : mc.1 = []
  · simp only [fallbackStage]
    rw [if_pos hm]
    by_cases h2 : (keywordStep domain_keywords (lowerStr title ++ " " ++ lowerStr scope)
        mc.1 mc.2).1 = []
    · rw [if_pos h2]
      cases existing with
      | none =>
        simp only [defaultStage]
        rw [if_pos h2]
        simp
      | some e =>
        dsimp only
        by_cases he : pyStrip e ≠ ""
        · rw [if_pos he]
          rw [defaultStage_of_ne _ (by simp)]
          rw [h2]
          simp
        · rw [if_neg he]
          simp only [defaultStage]
          rw [if_pos h2]
          simp
    · rw [if_neg h2, defaultStage_of_ne _ h2, hm]
      exact keywordStep_fst_nodup _ _
  · rw [fallbackStage_of_ne _ _ _ _ hm, defaultStage_of_ne _ hm]
    exact h

/-- When step 1 produced nothing and the keyword scan produces at least one
domain, the pipeline finishes with exactly the keyword scan's output. -/
theorem fallback_from_empty_keyword_ne (title scope : String) (ex : Option String)
    (h : (keywordStep domain_keywords (lowerStr title ++ " " ++ lowerStr scope) [] []).1
      ≠ []) :
    defaultStage (fallbackStage title scope ex (([], [])))
      = keywordStep domain_keywords (lowerStr title ++ " " ++ lowerStr scope) [] [] := by
  simp only [fallbackStage, if_true]
  rw [if_neg h, defaultStage_of_ne _ h]

theorem categorizeRow_domains (gr : Option GeminiResult) (pid title scope : String)
    (ex : Option String) :
    (categorizeRow gr pid title scope ex).domains
      = (defaultStage (fallbackStage title scope ex (afterGemini gr))).1 := rfl

theorem categorizeRow_conf (gr : Option GeminiResult) (pid title scope : String)
    (ex : Option String) :
    (categorizeRow gr pid title scope ex).confidence_scores
      = (defaultStage (fallbackStage title scope ex (afterGemini gr))).2 := rfl

theorem categorizeRow_method (gr : Option GeminiResult) (pid title scope : String)
    (ex : Option String) :
    (categorizeRow gr pid title scope ex).categorization_method
      = if gr.isSome then "gemini_ai" else "keyword_matching" := rfl

end PipelineLemmas

section Claims

/-- C1 (counterexample): the adapter returns the parseable, truthy result
`{"domains": [], "primary_domain": ""}` with zero retained domains, the
keyword fallback produces the matched domains (per-domain method tag
`keyword_matching`), yet the record-level method tag is `gemini_ai`, not
`keyword` as the claim requires. -/
theorem c1_method_counterexample :
    (resolveRow true (fun _ _ => some grEmptyTruthy) "p" "web" "portal" none).categorization_method
        = "gemini_ai"
      ∧ (resolveRow true (fun _ _ => some grEmptyTruthy) "p" "web" "portal" none).domains
        = ["Web Development"]
      ∧ (resolveRow true (fun _ _ => some grEmptyTruthy) "p" "web" "portal" none).confidence_scores
        = [("Web Development", ⟨1, .keywords ["web"], "keyword_matching"⟩)] := by
  decide

/-- C1 (amended): the record-level method tag is `gemini_ai` exactly when
the adapter returned a parseable truthy result — even when that result
retained zero domains and a fallback step actually produced
`matched_domains` — and `keyword_matching` in every other case, including
when the existing-label or default step produced the domains.  When the AI
step itself retained at least one domain, every per-domain confidence entry
carries the `gemini_ai` method tag. -/
theorem c1_method_amended (gr : Option GeminiResult) (pid title scope : String)
    (ex : Option String) :
    (categorizeRow gr pid title scope ex).categorization_method
        = (if gr.isSome then "gemini_ai" else "keyword_matching")
      ∧ (∀ g, gr = some g → (geminiStep g).1 ≠ [] →
          ∀ e ∈ (categorizeRow gr pid title scope ex).confidence_scores,
            (Prod.snd e).method = "gemini_ai") := by
  refine ⟨categorizeRow_method gr pid title scope ex, ?_⟩
  rintro g rfl hne e he
  rw [categorizeRow_conf] at he
  have hag : afterGemini (some g) = geminiStep g := rfl
  rw [hag, fallbackStage_of_ne _ _ _ _ hne, defaultStage_of_ne _ hne] at he
  exact geminiStep_methods g e he

/-- C1 (witness): concrete AI-resolved record with method tag `gemini_ai`
and a `gemini_ai`-tagged confidence entry. -/
theorem c1_method_witness :
    (categorizeRow (some grSingle) "p" "t" "s" none).categorization_method = "gemini_ai"
      ∧ (("Web Development",
          (⟨7, .reasoning "frontend work", "gemini_ai"⟩ : ConfEntry)) :
            String × ConfEntry).2.method = "gemini_ai" := by
  have h := c1_method_amended (some grSingle) "p" "t" "s" none
  refine ⟨by simpa using h.1, ?_⟩
  exact h.2 grSingle rfl (by decide)
    ("Web Development", ⟨7, .reasoning "frontend work", "gemini_ai"⟩) (by decide)

/-- C2 (counterexample): an out-of-range similarity threshold (2 ∉ [0,1])
is installed by the ordinary configuration path without any error — the
constructor and the attribute assignment are total — and the analysis then
runs on it, silently producing zero pairs instead of failing fast. -/
theorem c2_validation_counterexample :
    (setSimilarityThreshold (FYPAnalyzer.init none false false) 2).similarity_threshold = 2
      ∧ ¬ ((setSimilarityThreshold (FYPAnalyzer.init none false false) 2).similarity_threshold
          ≤ 1)
      ∧ (FYPAnalyzer.init none false false).domain_keywords ≠ []
      ∧ calculate_similarity [rowAlpha, rowBeta] (fun i j => if i = j then 1 else Rat.divInt 9 10)
          (setSimilarityThreshold (FYPAnalyzer.init none false false) 2).similarity_threshold
        = [] := by
  decide

/-- C2 (amended): construction never validates configuration and never
fails: the constructor accepts only an optional API key and availability
flags, always succeeds, and installs the fixed non-empty taxonomy with
threshold 0.3; the similarity threshold is configured by plain attribute
assignment after construction, which accepts any value (including values
outside [0,1]) silently. -/
theorem c2_construction_amended (key : Option String) (avail ok : Bool) (t : ℚ) :
    (FYPAnalyzer.init key avail ok).similarity_threshold = Rat.divInt 3 10
      ∧ (setSimilarityThreshold (FYPAnalyzer.init key avail ok) t).similarity_threshold = t
      ∧ (setSimilarityThreshold (FYPAnalyzer.init key avail ok) t).domain_keywords
          = domain_keywords
      ∧ domain_keywords ≠ [] :=
  ⟨rfl, rfl, rfl, by decide⟩

/-- C4 (counterexample): the adapter designates `Cybersecurity` as primary
while also reporting it (second) at confidence 8; the code keeps it at its
reported position, so the first entry of `matched_domains` is not the
designated primary domain. -/
theorem c4_primary_counterexample :
    (categorizeRow (some grPrimaryRetained) "p" "t" "s" none).domains
        = ["Web Development", "Cybersecurity"]
      ∧ (categorizeRow (some grPrimaryRetained) "p" "t" "s" none).domains.headD ""
        ≠ grPrimaryRetained.primary_domain := by
  decide

/-- C4 (amended): when the AI step retains at least one domain and the
adapter designates a non-empty primary domain, the primary domain is always
contained in `matched_domains`; it is inserted as the FIRST entry only when
it was not independently retained at confidence ≥ 6 — otherwise it stays at
its adapter-reported position and the remaining retained domains keep the
adapter's reported order. -/
theorem c4_primary_amended (g : GeminiResult) (pid title scope : String)
    (ex : Option String) (hret : retainedNames g ≠ []) (hp : g.primary_domain ≠ "") :
    (categorizeRow (some g) pid title scope ex).domains
        = (if g.primary_domain ∈ retainedNames g then retainedNames g
           else g.primary_domain :: retainedNames g)
      ∧ g.primary_domain ∈ (categorizeRow (some g) pid title scope ex).domains := by
  have hne : (geminiStep g).1 ≠ [] := by
    rw [geminiStep_fst]
    by_cases hmem : g.primary_domain ∈ retainedNames g
    · rw [if_neg (by simp [hmem])]
      exact hret
    · rw [if_pos ⟨hp, hmem⟩]
      simp
  have hdom : (categorizeRow (some g) pid title scope ex).domains = (geminiStep g).1 := by
    rw [categorizeRow_domains]
    have hag : afterGemini (some g) = geminiStep g := rfl
    rw [hag, fallbackStage_of_ne _ _ _ _ hne, defaultStage_of_ne _ hne]
  constructor
  · rw [hdom, geminiStep_fst]
    by_cases hmem : g.primary_domain ∈ retainedNames g
    · rw [if_neg (by simp [hmem]), if_pos hmem]
    · rw [if_pos ⟨hp, hmem⟩, if_neg hmem]
  · rw [hdom, geminiStep_fst]
    by_cases hmem : g.primary_domain ∈ retainedNames g
    · rw [if_neg (by simp [hmem])]
      exact hmem
    · rw [if_pos ⟨hp, hmem⟩]
      exact List.mem_cons_self _ _

/-- C4 (witness): the amended statement evaluated on the counterexample
adapter response. -/
theorem c4_primary_witness :
    (categorizeRow (some grPrimaryRetained) "pw" "t" "s" none).domains
        = ["Web Development", "Cybersecurity"]
      ∧ "Cybersecurity" ∈ (categorizeRow (some grPrimaryRetained) "pw" "t" "s" none).domains := by
  have h := c4_primary_amended grPrimaryRetained "pw" "t" "s" none (by decide) (by decide)
  refine ⟨?_, h.2⟩
  rw [h.1]
  decide

/-- C6 (counterexample): an adapter response repeating `Web Development`
twice at confidence ≥ 6 yields a `matched_domains` list with a duplicate
entry, violating the no-duplicates claim. -/
theorem c6_duplicates_counterexample :
    (categorizeRow (some grDuplicated) "p" "t" "s" none).domains
        = ["Web Development", "Web Development"]
      ∧ ¬ (categorizeRow (some grDuplicated) "p" "t" "s" none).domains.Nodup := by
  decide

/-- C6 (amended): `matched_domains` is always non-empty; it is
duplicate-free on every non-AI resolution path, and on the AI path whenever
the adapter's retained names are themselves distinct — an adapter repeating
a name at confidence ≥ 6 produces duplicates. -/
theorem c6_invariant_amended (gr : Option GeminiResult) (pid title scope : String)
    (ex : Option String) :
    (categorizeRow gr pid title scope ex).domains ≠ []
      ∧ ((∀ g, gr = some g → (retainedNames g).Nodup) →
          (categorizeRow gr pid title scope ex).domains.Nodup) := by
  constructor
  · rw [categorizeRow_domains]
    exact defaultStage_ne_nil _
  · intro hnd
    rw [categorizeRow_domains]
    apply fallback_default_nodup
    cases gr with
    | none => simp [afterGemini]
    | some g =>
      have h := hnd g rfl
      show (geminiStep g).1.Nodup
      rw [geminiStep_fst]
      by_cases hg : g.primary_domain ≠ "" ∧ g.primary_domain ∉ retainedNames g
      · rw [if_pos hg]
        exact List.nodup_cons.mpr ⟨hg.2, h⟩
      · rw [if_neg hg]
        exact h

/-- C6 (witness): the amended invariant evaluated on a duplicate-free
adapter response. -/
theorem c6_invariant_witness :
    (categorizeRow (some grSingle) "pw6" "t" "s" none).domains ≠ []
      ∧ (categorizeRow (some grSingle) "pw6" "t" "s" none).domains.Nodup := by
  have h := c6_invariant_amended (some grSingle) "pw6" "t" "s" none
  refine ⟨h.1, h.2 ?_⟩
  intro g hg
  injection hg with hh
  subst hh
  decide

/-- C9: with fewer than two records whose combined cleaned text is
non-blank, the similarity computation returns the empty table (it is a
total function, so no error is possible); records with blank combined text
are excluded from the similarity universe by `usableEntries`. -/
theorem c9_insufficient_data (df : List Row) (sim : Nat → Nat → ℚ) (t : ℚ)
    (h : (usableEntries df).length < 2) : calculate_similarity df sim t = [] := by
  unfold calculate_similarity
  rw [if_pos h]

/-- C9 (witness): a dataframe with one blank and one usable record has
fewer than two usable texts and yields the empty similarity table. -/
theorem c9_insufficient_data_witness :
    (usableEntries [rowBlank, rowAlpha]).length < 2
      ∧ calculate_similarity [rowBlank, rowAlpha] (fun _ _ => 1) (Rat.divInt 3 10) = [] :=
  ⟨by decide, c9_insufficient_data [rowBlank, rowAlpha] (fun _ _ => 1) (Rat.divInt 3 10)
    (by decide)⟩

/-- C10: for every record and every resolution path, the key set of the
per-domain `confidence_scores` mapping coincides with the set of names in
`matched_domains` — every matched domain has a recorded entry (score,
method tag and evidence are fields of every `ConfEntry`), and no entry
exists for an unmatched domain. -/
theorem c10_conf_keys (gr : Option GeminiResult) (pid title scope : String)
    (ex : Option String) (d : String) :
    d ∈ (categorizeRow gr pid title scope ex).domains
      ↔ d ∈ (categorizeRow gr pid title scope ex).confidence_scores.map Prod.fst := by
  rw [categorizeRow_domains, categorizeRow_conf]
  have hbase : ∀ d, d ∈ (afterGemini gr).1 ↔ d ∈ (afterGemini gr).2.map Prod.fst := by
    cases gr with
    | none => simp [afterGemini]
    | some g => exact geminiStep_keys g
  exact defaultStage_keys _ (fallbackStage_keys _ _ _ _ hbase) d

/-- C3 (counterexample): raw cosine 0.7004 is retained at threshold 0.3 and
reported with rounded score 0.700 but tier `Very High` — the tier the code
computes from the RAW value — whereas the tier ladder applied to the
rounded, reported score 0.700 yields `High`. -/
theorem c3_tier_counterexample :
    calculate_similarity [rowAlpha, rowBeta]
        (fun i j => if i = 0 ∧ j = 1 then Rat.divInt 7004 10000 else 0) (Rat.divInt 3 10)
      = [{ project_1_id := "a", project_2_id := "b", similarity_score := Rat.divInt 7 10,
           similarity_level := "Very High", overlapping_domains := ["Other"] }]
      ∧ similarityLevel (Rat.divInt 7 10) = "High" := by
  decide

/-- C3 (amended): every reported pair comes from a raw cosine value that
strictly exceeds the threshold (retention is decided on the unrounded
value); the reported score is that value rounded to 3 decimals and the tier
label is computed from the UNROUNDED value; consequently the reported
rounded score lies within 1/2000 of the threshold from below and never
exceeds 1 (given a cosine matrix with entries in [0,1]). -/
theorem c3_score_tier_amended (df : List Row) (sim : Nat → Nat → ℚ) (t : ℚ)
    (hsim : ∀ i j, 0 ≤ sim i j ∧ sim i j ≤ 1) (p : SimilarPair)
    (hp : p ∈ calculate_similarity df sim t) :
    ∃ raw : ℚ, t < raw ∧ raw ≤ 1
      ∧ p.similarity_score = round3 raw
      ∧ p.similarity_level = similarityLevel raw
      ∧ t - 1 / 2000 ≤ p.similarity_score ∧ p.similarity_score ≤ 1 := by
  unfold calculate_similarity at hp
  by_cases h2 : (usableEntries df).length < 2
  · rw [if_pos h2] at hp
    simp at hp
  · rw [if_neg h2] at hp
    rw [mem_pandasSortDesc] at hp
    obtain ⟨i, j, hij, hgt, rfl⟩ := mem_discoveredPairs hp
    refine ⟨sim i j, hgt, (hsim i j).2, rfl, rfl, ?_, ?_⟩
    · show t - 1 / 2000 ≤ round3 (sim i j)
      have hb := (round3_bounds (sim i j)).1
      linarith
    · show round3 (sim i j) ≤ 1
      exact round3_le_one (hsim i j).2

/-- C3 (witness): the amended statement evaluated on a concrete two-record
input with raw cosine 0.5. -/
theorem c3_score_tier_witness :
    (Rat.divInt 3 10 : ℚ) - 1 / 2000
        ≤ ({ project_1_id := "a", project_2_id := "b", similarity_score := Rat.divInt 1 2,
             similarity_level := "Medium", overlapping_domains := ["Other"] } :
              SimilarPair).similarity_score
      ∧ ({ project_1_id := "a", project_2_id := "b", similarity_score := Rat.divInt 1 2,
           similarity_level := "Medium", overlapping_domains := ["Other"] } :
            SimilarPair).similarity_score ≤ 1 := by
  obtain ⟨raw, -, -, -, -, h5, h6⟩ := c3_score_tier_amended [rowAlpha, rowBeta]
    (fun _ _ => Rat.divInt 1 2) (Rat.divInt 3 10)
    (by
      intro i j
      show (0 : ℚ) ≤ Rat.divInt 1 2 ∧ (Rat.divInt 1 2 : ℚ) ≤ 1
      exact ⟨by decide, by decide⟩)
    { project_1_id := "a", project_2_id := "b", similarity_score := Rat.divInt 1 2,
      similarity_level := "Medium", overlapping_domains := ["Other"] } (by decide)
  exact ⟨h5, h6⟩

/-- C5 (counterexample): both records match the Web Development AND the
Game Development taxonomy entries, so the intersection of their pipeline
`matched_domains` contains `Game Development`; the reported
`overlapping_domains` of their similarity pair is only `["Web Development"]`
because it is computed from the single-winner `get_project_domains`
lookup. -/
theorem c5_overlap_counterexample :
    calculate_similarity [rowWebGame, rowGameWeb]
        (fun i j => if i = 0 ∧ j = 1 then Rat.divInt 1 2 else 0) (Rat.divInt 3 10)
      = [{ project_1_id := "p1", project_2_id := "p2", similarity_score := Rat.divInt 1 2,
           similarity_level := "Medium", overlapping_domains := ["Web Development"] }]
      ∧ "Game Development" ∈ (categorizeRow none "p1" "web game" "" none).domains
      ∧ "Game Development" ∈ (categorizeRow none "p2" "game web" "" none).domains
      ∧ "Game Development"
        ∉ ({ project_1_id := "p1", project_2_id := "p2", similarity_score := Rat.divInt 1 2,
             similarity_level := "Medium", overlapping_domains := ["Web Development"] } :
              SimilarPair).overlapping_domains := by
  decide

/-- C5 (amended): for every reported pair, `overlapping_domains` is, as a
set, the intersection of the two records' SINGLE-WINNER domain lookups
`get_project_domains` (first taxonomy domain with any keyword occurring in
the cleaned combined text, else `Other`) — not of the full multi-domain
sets produced by the resolution pipeline. -/
theorem c5_overlap_amended (df : List Row) (sim : Nat → Nat → ℚ) (t : ℚ)
    (p : SimilarPair) (hp : p ∈ calculate_similarity df sim t) (d : String) :
    d ∈ p.overlapping_domains
      ↔ d ∈ get_project_domains p.project_1_id df
        ∧ d ∈ get_project_domains p.project_2_id df := by
  unfold calculate_similarity at hp
  by_cases h2 : (usableEntries df).length < 2
  · rw [if_pos h2] at hp
    simp at hp
  · rw [if_neg h2] at hp
    rw [mem_pandasSortDesc] at hp
    obtain ⟨i, j, hij, hgt, rfl⟩ := mem_discoveredPairs hp
    show d ∈ List.filter _ (get_project_domains _ df) ↔ _
    rw [List.mem_filter]
    simp

/-- C5 (witness): the amended statement evaluated on the two-record
counterexample input at the domain `Web Development`. -/
theorem c5_overlap_witness :
    ("Web Development"
        ∈ ({ project_1_id := "p1", project_2_id := "p2", similarity_score := Rat.divInt 1 2,
             similarity_level := "Medium", overlapping_domains := ["Web Development"] } :
              SimilarPair).overlapping_domains)
      ↔ "Web Development" ∈ get_project_domains "p1" [rowWebGame, rowGameWeb]
        ∧ "Web Development" ∈ get_project_domains "p2" [rowWebGame, rowGameWeb] :=
  c5_overlap_amended [rowWebGame, rowGameWeb]
    (fun i j => if i = 0 ∧ j = 1 then Rat.divInt 1 2 else 0) (Rat.divInt 3 10)
    { project_1_id := "p1", project_2_id := "p2", similarity_score := Rat.divInt 1 2,
      similarity_level := "Medium", overlapping_domains := ["Web Development"] }
    (by decide) "Web Development"

/-- C7 (counterexample): the keyword `saas` occurs twice in `saasaas ` when
overlapping occurrences are counted, but Python's `str.count` (and hence
the recorded score) counts non-overlapping occurrences only, giving Cloud
Computing a score of 1, not 2. -/
theorem c7_overlap_count_counterexample :
    strCount "saasaas " "saas" = 1
      ∧ strCountOverlapping "saasaas " "saas" = 2
      ∧ (categorizeRow none "p" "saasaas" "" none).confidence_scores
        = [("Cloud Computing", ⟨1, .keywords ["saas"], "keyword_matching"⟩)] := by
  decide

/-- C7 (amended): in the keyword fallback, each domain's score equals the
sum over its keyword phrases of the number of NON-overlapping
case-insensitive substring occurrences in the concatenated
title-plus-scope text (Python `str.count` semantics: the scan resumes after
the end of each match); a domain is emitted iff its aggregate score > 0,
each keyword with a nonzero count is recorded as evidence, and emitted
domains appear in taxonomy declaration order. -/
theorem c7_keyword_scoring_amended (title scope : String)
    (h : specKeywordDomains (lowerStr title ++ " " ++ lowerStr scope) ≠ []) :
    keywordStep domain_keywords (lowerStr title ++ " " ++ lowerStr scope) [] []
        = (specKeywordDomains (lowerStr title ++ " " ++ lowerStr scope),
           specKeywordConf (lowerStr title ++ " " ++ lowerStr scope))
      ∧ ∀ pid ex, (categorizeRow none pid title scope ex).domains
          = specKeywordDomains (lowerStr title ++ " " ++ lowerStr scope) := by
  have heq : keywordStep domain_keywords (lowerStr title ++ " " ++ lowerStr scope) [] []
      = (specKeywordDomains (lowerStr title ++ " " ++ lowerStr scope),
         specKeywordConf (lowerStr title ++ " " ++ lowerStr scope)) := by
    rw [keywordStep_eq (lowerStr title ++ " " ++ lowerStr scope)
      domain_keywords [] [] domain_keys_nodup (by simp)]
    simp [specKeywordDomains, specKeywordConf, keywordScore_spec, domainScore]
  refine ⟨heq, ?_⟩
  intro pid ex
  have hne : (keywordStep domain_keywords (lowerStr title ++ " " ++ lowerStr scope) [] []).1
      ≠ [] := by
    rw [heq]
    simpa using h
  rw [categorizeRow_domains]
  have hag : afterGemini none = (([] : List String), ([] : List (String × ConfEntry))) := rfl
  rw [hag, fallback_from_empty_keyword_ne title scope ex hne, heq]

/-- C7 (witness): the amended statement evaluated on the record
`("web", "")`. -/
theorem c7_keyword_scoring_witness :
    keywordStep domain_keywords (lowerStr "web" ++ " " ++ lowerStr "") [] []
        = (specKeywordDomains (lowerStr "web" ++ " " ++ lowerStr ""),
           specKeywordConf (lowerStr "web" ++ " " ++ lowerStr ""))
      ∧ (categorizeRow none "p" "web" "" none).domains
        = specKeywordDomains (lowerStr "web" ++ " " ++ lowerStr "") := by
  have h := c7_keyword_scoring_amended "web" "" (by decide)
  exact ⟨h.1, h.2 "p" none⟩

end Claims

end FYP
